import Mathlib
/-- Transaction type: `'income' | 'expense'` (TransactionContext). -/
inductive TxType where
  | income
  | expense
deriving DecidableEq, Repr

/-- Record `Transaction` from `app/context/TransactionContext.tsx`. -/
structure Transaction where
  id : String
  title : String
  amount : ℚ
  category : String
  txType : TxType
  date : String
deriving DecidableEq, Repr

/-- Source `addTransaction`: `setTransactions(prev => [tx, ...prev])`. -/
def addTransaction (tx : Transaction) (prev : List Transaction) : List Transaction :=
  tx :: prev

/-- Source `deleteTransaction`: `setTransactions(prev => prev.filter(tx => tx.id !== id))`. -/
def deleteTransaction (i : String) (prev : List Transaction) : List Transaction :=
  prev.filter (fun tx => tx.id ≠ i)

/-- Source `type FilterType = 'all' | 'income' | 'expense'` (expenses screen). -/
inductive FilterType where
  | all
  | income
  | expense
deriving DecidableEq, Repr

/-- Source `type SortType = 'newest' | 'oldest' | 'highest' | 'lowest'` (expenses screen). -/
inductive SortType where
  | newest
  | oldest
  | highest
  | lowest
deriving DecidableEq, Repr

/-- JS `String.prototype.toLowerCase`, character-wise (ASCII-faithful). -/
def jsToLower (s : String) : List Char :=
  s.data.map Char.toLower

/-- Test that `l2` starts with `l1`. -/
def startsList : List Char → List Char → Bool
  | [], _ => true
  | _ :: _, [] => false
  | a :: as, b :: bs => a == b && startsList as bs

/-- Test that `hay` contains `needle` as a contiguous sublist. -/
def containsList (hay needle : List Char) : Bool :=
  match hay with
  | [] => needle.isEmpty
  | _ :: t => startsList needle hay || containsList t needle

/-- JS `s.includes(sub)`: substring test. -/
def jsIncludes (s sub : List Char) : Bool :=
  containsList s sub

/-- Days since the Unix epoch of the civil date (y, m, d); the standard
civil-from-days inverse algorithm. Used only with in-range dates, where all
intermediate divisions act on nonnegative numbers. -/
def daysFromCivil (y m d : ℤ) : ℤ :=
  let y2 : ℤ := if m ≤ 2 then y - 1 else y
  let era : ℤ := (if 0 ≤ y2 then y2 else y2 - 399) / 400
  let yoe : ℤ := y2 - era * 400
  let mp : ℤ := if 2 < m then m - 3 else m + 9
  let doy : ℤ := (153 * mp + 2) / 5 + d - 1
  let doe : ℤ := yoe * 365 + yoe / 4 - yoe / 100 + doy
  era * 146097 + doe - 719468

/-- Numeric value of a decimal digit character. -/
def digitVal (c : Char) : ℕ :=
  c.toNat - 48

/-- All characters are decimal digits. -/
def allDigits (cs : List Char) : Bool :=
  cs.all Char.isDigit

/-- Natural number denoted by a digit string. -/
def natOfDigits (cs : List Char) : ℕ :=
  cs.foldl (fun acc c => acc * 10 + digitVal c) 0

/-- Value of `new Date(s).getTime()` for an ISO `YYYY-MM-DD` string: milliseconds since
the Unix epoch at UTC midnight of that date. Models `Date.parse` on the valid
ISO dates the program uses; other strings are outside the model (JS would
yield NaN or an engine-specific locale parse) and are mapped to 0. -/
def dateValue (s : String) : ℤ :=
  match s.data with
  | [y1, y2, y3, y4, '-', m1, m2, '-', d1, d2] =>
    if allDigits [y1, y2, y3, y4, m1, m2, d1, d2] then
      let y : ℕ := natOfDigits [y1, y2, y3, y4]
      let m : ℕ := natOfDigits [m1, m2]
      let d : ℕ := natOfDigits [d1, d2]
      if 1 ≤ m ∧ m ≤ 12 ∧ 1 ≤ d ∧ d ≤ 31 then
        daysFromCivil y m d * 86400000
      else 0
    else 0
  | _ => 0

/-- The comparator passed to `filtered.sort` in `processedTransactions`
(a JS three-way comparator: negative keeps `a` before `b`). -/
def sortComparator (s : SortType) (a b : Transaction) : ℚ :=
  match s with
  | SortType.newest => ((dateValue b.date : ℚ)) - ((dateValue a.date : ℚ))
  | SortType.oldest => ((dateValue a.date : ℚ)) - ((dateValue b.date : ℚ))
  | SortType.highest => b.amount - a.amount
  | SortType.lowest => a.amount - b.amount

/-- Relation "`a` may stay before `b`" under the comparator: `comparator a b ≤ 0`. -/
def sortLe (s : SortType) (a b : Transaction) : Bool :=
  decide (sortComparator s a b ≤ 0)

/-- Insert `x` after every element `y` of the (already sorted) list with
`le y x`; the insertion step of a stable insertion sort. -/
def insertStable (le : α → α → Bool) (x : α) : List α → List α
  | [] => [x]
  | y :: ys => if le y x then y :: insertStable le x ys else x :: y :: ys

/-- Stable sort with respect to `le` (left-to-right insertion keeps the
original relative order of tied elements), modelling ES2019+
`Array.prototype.sort` with comparator-induced `le`. -/
def stableSort (le : α → α → Bool) (l : List α) : List α :=
  l.foldl (fun acc x => insertStable le x acc) []

/-- The search stage of `processedTransactions`: run only when `searchQuery`
is truthy (non-empty); keeps transactions whose lowercased title or category
contains the lowercased query. -/
def searchStep (q : String) (l : List Transaction) : List Transaction :=
  if q = "" then l
  else l.filter (fun t =>
    jsIncludes (jsToLower t.title) (jsToLower q) ||
    jsIncludes (jsToLower t.category) (jsToLower q))

/-- The type-filter stage: run only when `filterType !== 'all'`. -/
def filterStep (f : FilterType) (l : List Transaction) : List Transaction :=
  match f with
  | FilterType.all => l
  | FilterType.income => l.filter (fun t => t.txType = TxType.income)
  | FilterType.expense => l.filter (fun t => t.txType = TxType.expense)

/-- The sort stage: `filtered.sort(comparator)`. -/
def sortStep (s : SortType) (l : List Transaction) : List Transaction :=
  stableSort (sortLe s) l

/-- The `processedTransactions` memo of the expenses screen. It returns the
pair (display list, transaction store after the computation): `filter` always
allocates a fresh array, but when the search query is empty **and** the type
filter is `'all'`, no `filter` runs, `filtered` still aliases the store's own
array, and `filtered.sort` reorders the store in place. -/
def processedTransactions (txs : List Transaction) (q : String) (f : FilterType)
    (s : SortType) : List Transaction × List Transaction :=
  let display := sortStep s (filterStep f (searchStep q txs))
  (display, if q = "" ∧ f = FilterType.all then display else txs)

/-- Per-category accumulator entry `{ income, expense }`. -/
structure CategoryStat where
  income : ℚ
  expense : ℚ
deriving DecidableEq, Repr

/-- Source `acc[t.category][t.type] += t.amount`. -/
def bumpStat (st : CategoryStat) (ty : TxType) (amt : ℚ) : CategoryStat :=
  match ty with
  | TxType.income => { st with income := st.income + amt }
  | TxType.expense => { st with expense := st.expense + amt }

/-- One step of the `categoryStats` reduce: create the entry if absent
(JS objects keep key insertion order, hence the append), then add the amount
to the field selected by the transaction type. -/
def catStep (acc : List (String × CategoryStat)) (t : Transaction) :
    List (String × CategoryStat) :=
  let acc2 := if acc.any (fun p => p.1 = t.category) then acc
              else acc ++ [(t.category, ⟨0, 0⟩)]
  acc2.map (fun p => if p.1 = t.category then (p.1, bumpStat p.2 t.txType t.amount) else p)

/-- Source `categoryStats`: the reduce over the full transaction list. -/
def categoryStats (txs : List Transaction) : List (String × CategoryStat) :=
  txs.foldl catStep []

/-- Property access `stats[c]`: the entry stored under key `c`. -/
def catLookup (acc : List (String × CategoryStat)) (c : String) : Option CategoryStat :=
  (acc.find? (fun p => p.1 = c)).map (fun p => p.2)

/-- The result record of the `analytics` memo. -/
structure Analytics where
  totalIncome : ℚ
  totalExpense : ℚ
  balance : ℚ
  transactionCount : ℕ
  categoryStats : List (String × CategoryStat)
deriving DecidableEq, Repr

/-- The `analytics` memo of the expenses screen: totals by type, balance,
count, and the per-category breakdown, all over the full (unfiltered) list. -/
def analytics (txs : List Transaction) : Analytics :=
  let totalIncome := ((txs.filter (fun t => t.txType = TxType.income)).map
    (fun t => t.amount)).foldl (fun sum a => sum + a) 0
  let totalExpense := ((txs.filter (fun t => t.txType = TxType.expense)).map
    (fun t => t.amount)).foldl (fun sum a => sum + a) 0
  { totalIncome := totalIncome
    totalExpense := totalExpense
    balance := totalIncome - totalExpense
    transactionCount := txs.length
    categoryStats := categoryStats txs }

/-- Record `SavingsGoal` (expenses screen, savings context). -/
structure SavingsGoal where
  id : String
  title : String
  targetAmount : ℚ
  currentAmount : ℚ
  deadline : String
  category : String
deriving DecidableEq, Repr

/-- Source `addSavingsGoal`: `setSavingsGoals(prev => [goal, ...prev])`. -/
def addSavingsGoal (goal : SavingsGoal) (prev : List SavingsGoal) : List SavingsGoal :=
  goal :: prev

/-- Source `updateSavingsGoal` (the contribute operation):
`prev.map(goal => goal.id === id ? { ...goal, currentAmount: Math.min(goal.targetAmount, goal.currentAmount + amount) } : goal)`. -/
def updateSavingsGoal (i : String) (amount : ℚ) (prev : List SavingsGoal) :
    List SavingsGoal :=
  prev.map (fun goal =>
    if goal.id = i then
      { goal with currentAmount := min goal.targetAmount (goal.currentAmount + amount) }
    else goal)

/-- Source `deleteSavingsGoal`, once the UI confirmation fires:
`setSavingsGoals(prev => prev.filter(goal => goal.id !== id))`. -/
def deleteSavingsGoal (i : String) (prev : List SavingsGoal) : List SavingsGoal :=
  prev.filter (fun goal => goal.id ≠ i)

/-- The `formData` state of `AddSavingsGoalForm`: four text inputs. -/
structure FormData where
  title : String
  targetAmount : String
  deadline : String
  category : String
deriving DecidableEq, Repr

/-- JS `parseFloat` on the plain decimal literals the numeric keyboard
produces: optional sign, digits, optional fractional part. Strings that JS
parses to NaN are outside the rational model and return `none` (the claims
and the spec exercise only numeric inputs). -/
def parseFloat (s : String) : Option ℚ :=
  let core : List Char → Option ℚ := fun cs =>
    match cs.span Char.isDigit with
    | (intPart, rest) =>
      match rest with
      | [] => if intPart.isEmpty then none else some (natOfDigits intPart)
      | '.' :: frac =>
        if intPart.isEmpty ∧ frac.isEmpty then none
        else if allDigits frac then
          some ((natOfDigits intPart : ℚ) + (natOfDigits frac : ℚ) / (10 ^ frac.length))
        else none
      | _ => none
  match s.data with
  | '-' :: cs => (core cs).map (fun q => -q)
  | cs => core cs

/-- Source `handleSubmit` of `AddSavingsGoalForm`: rejects when any field is empty
(JS falsiness of `''`) or when the parsed target amount is not greater
than 0; otherwise prepends the new goal (fresh id supplied by the caller,
`currentAmount` initialised to 0). Rejection performs no state mutation
(only an alert). A non-empty `targetAmount` string that JS parses to NaN is
outside this rational model (see `parseFloat`); on such input the comparison
`NaN <= 0` is false in JS and the branch is not modelled here. -/
def handleSubmit (fd : FormData) (newId : String) (prev : List SavingsGoal) :
    List SavingsGoal :=
  if fd.title = "" ∨ fd.targetAmount = "" ∨ fd.deadline = "" ∨ fd.category = "" then
    prev
  else
    match parseFloat fd.targetAmount with
    | some t =>
      if t ≤ 0 then prev
      else addSavingsGoal
        { id := newId
          title := fd.title
          targetAmount := t
          currentAmount := 0
          deadline := fd.deadline
          category := fd.category } prev
    | none => prev

/-- JSON value tree, as produced by `JSON.parse` / consumed by
`JSON.stringify` (numbers as exact rationals, per the modelling convention). -/
inductive JValue where
  | null
  | bool (b : Bool)
  | num (q : ℚ)
  | str (s : String)
  | arr (items : List JValue)
  | obj (fields : List (String × JValue))

/-- Encoding `JSON.stringify` of one goal: the object literal with the source's
property order. -/
def encodeGoal (g : SavingsGoal) : JValue :=
  JValue.obj
    [("id", JValue.str g.id),
     ("title", JValue.str g.title),
     ("targetAmount", JValue.num g.targetAmount),
     ("currentAmount", JValue.num g.currentAmount),
     ("deadline", JValue.str g.deadline),
     ("category", JValue.str g.category)]

/-- Encoding `JSON.stringify(goals)`: the array of encoded goals. -/
def encodeGoals (gs : List SavingsGoal) : JValue :=
  JValue.arr (gs.map encodeGoal)

/-- Property access `v[key]` on a parsed JSON object. -/
def jGet (v : JValue) (key : String) : Option JValue :=
  match v with
  | JValue.obj fields => (fields.find? (fun p => p.1 = key)).map (fun p => p.2)
  | _ => none

/-- Read a parsed goal record back into the typed view (field access on the
object `JSON.parse` returned). -/
def decodeGoal (v : JValue) : Option SavingsGoal :=
  match jGet v ("id"), jGet v ("title"), jGet v ("targetAmount"), jGet v ("currentAmount"),
      jGet v ("deadline"), jGet v ("category") with
  | some (JValue.str i), some (JValue.str t), some (JValue.num ta),
      some (JValue.num ca), some (JValue.str dl), some (JValue.str c) =>
    some { id := i, title := t, targetAmount := ta, currentAmount := ca,
           deadline := dl, category := c }
  | _, _, _, _, _, _ => none

/-- Read a parsed goal array back into the typed view. -/
def decodeGoals (v : JValue) : Option (List SavingsGoal) :=
  match v with
  | JValue.arr items => items.mapM decodeGoal
  | _ => none

/-- A string stored in AsyncStorage, viewed through `JSON.parse`: either a
rendering of a JSON value (on which `JSON.parse` succeeds and returns that
value — `JSON.parse ∘ JSON.stringify` is the identity on value trees), or a
malformed string on which `JSON.parse` throws a `SyntaxError`. -/
inductive Payload where
  | json (v : JValue)
  | malformed (s : String)

/-- The AsyncStorage collaborator: a key-value map from string keys to stored
payloads (`getItem` returns `null` for an absent key). -/
def KVStore : Type := String → Option Payload

/-- Source `const STORAGE_KEY = '@savings_goals'`. -/
def STORAGE_KEY : String := "@savings_goals"

/-- Source `saveSavingsGoals`: `AsyncStorage.setItem(STORAGE_KEY, JSON.stringify(goals))`
(every save re-serialises the entire list under the single fixed key). -/
def saveSavingsGoals (goals : List SavingsGoal) (kv : KVStore) : KVStore :=
  fun k => if k = STORAGE_KEY then some (Payload.json (encodeGoals goals)) else kv k

/-- Observable outcome of `loadSavingsGoals`: the in-memory goal list after
the load (initially `[]` from `useState`), whether the loading flag is still
set (the `finally` clause always clears it), and whether the failure alert
`'Failed to load savings goals from storage'` was shown. -/
structure LoadResult where
  savingsGoals : List SavingsGoal
  isLoading : Bool
  alerted : Bool
deriving DecidableEq, Repr

/-- Source `loadSavingsGoals`: reads `STORAGE_KEY`. A `null` read leaves the
initial empty list. The guard `if (storedGoals)` tests JS truthiness of the
raw string, so a stored **empty string** is falsy and is skipped exactly like
an absent key: no `JSON.parse`, no alert. A truthy (non-empty) payload is
parsed; a malformed one makes `JSON.parse` throw, which is caught — the error
is alerted, the list stays empty, and control continues. Every rendering of a
JSON value is a non-empty, hence truthy, string, so the `Payload.json` branch
needs no emptiness test. The source applies no shape validation to a
successfully parsed value (`setSavingsGoals(parsedGoals)` as-is); a payload
that is valid JSON but not a goal array would put untyped data into the state
and lies outside this typed model (the `.getD []` branch below is unreachable
from `saveSavingsGoals`). -/
def loadSavingsGoals (kv : KVStore) : LoadResult :=
  match kv STORAGE_KEY with
  | none => { savingsGoals := [], isLoading := false, alerted := false }
  | some (Payload.json v) =>
    { savingsGoals := (decodeGoals v).getD [], isLoading := false, alerted := false }
  | some (Payload.malformed s) =>
    if s = "" then { savingsGoals := [], isLoading := false, alerted := false }
    else { savingsGoals := [], isLoading := false, alerted := true }

/-- The derivations of `SavingsGoalCard`:
`const progress = (goal.currentAmount / goal.targetAmount) * 100`. -/
def progress (goal : SavingsGoal) : ℚ :=
  goal.currentAmount / goal.targetAmount * 100

/-- Source `const remaining = goal.targetAmount - goal.currentAmount`. -/
def remaining (goal : SavingsGoal) : ℚ :=
  goal.targetAmount - goal.currentAmount

/-- Source `const isCompleted = goal.currentAmount >= goal.targetAmount`. -/
def isCompleted (goal : SavingsGoal) : Bool :=
  decide (goal.targetAmount ≤ goal.currentAmount)

/-- Source `getDaysRemaining`: `Math.ceil((deadline.getTime() - today.getTime()) / (1000*3600*24))`,
with the wall-clock instant `today` (milliseconds since the epoch) passed
explicitly. -/
def getDaysRemaining (goal : SavingsGoal) (todayMs : ℤ) : ℤ :=
  ⌈((dateValue goal.deadline - todayMs : ℤ) : ℚ) / (1000 * 3600 * 24)⌉

/-- Sequence of contribute operations, applied left to right through
`updateSavingsGoal`. -/
def contributeSeq (ops : List (String × ℚ)) (st : List SavingsGoal) : List SavingsGoal :=
  ops.foldl (fun s p => updateSavingsGoal p.1 p.2 s) st

/-- Spec-side sum: total amount of the income transactions of category `c`. -/
def incSum (txs : List Transaction) (c : String) : ℚ :=
  ((txs.filter (fun t => t.category = c ∧ t.txType = TxType.income)).map
    (fun t => t.amount)).sum

/-- Spec-side sum: total amount of the expense transactions of category `c`. -/
def expSum (txs : List Transaction) (c : String) : ℚ :=
  ((txs.filter (fun t => t.category = c ∧ t.txType = TxType.expense)).map
    (fun t => t.amount)).sum

/-- Example transaction 1 of the spec's query-pipeline test vector. -/
def exCoffee : Transaction :=
  { id := "1", title := "Coffee", amount := 5, category := "",
    txType := TxType.expense, date := "2024-01-02" }

/-- Example transaction 2 of the spec's query-pipeline test vector. -/
def exSalary : Transaction :=
  { id := "2", title := "Salary", amount := 1000, category := "",
    txType := TxType.income, date := "2024-01-01" }

/-- Example transaction of the spec's analytics test vector: 100, income. -/
def exIncome100 : Transaction :=
  { id := "a", title := "Paycheck", amount := 100, category := "Salary",
    txType := TxType.income, date := "2024-02-01" }

/-- Example transaction of the spec's analytics test vector: 40, expense. -/
def exExpense40 : Transaction :=
  { id := "b", title := "Utilities", amount := 40, category := "Bills",
    txType := TxType.expense, date := "2024-02-02" }

/-- Example transaction of the spec's analytics test vector: 10, expense,
category Food. -/
def exFood10 : Transaction :=
  { id := "c", title := "Groceries", amount := 10, category := "Food",
    txType := TxType.expense, date := "2024-02-03" }

/-- Example savings goal of the spec's progress test vector:
target 1000, current 250. -/
def exGoal : SavingsGoal :=
  { id := "g1", title := "Vacation", targetAmount := 1000, currentAmount := 250,
    deadline := "2025-06-01", category := "Travel" }

/-- Example form input accepted by `handleSubmit`. -/
def exFormOk : FormData :=
  { title := "Emergency Fund", targetAmount := "1000",
    deadline := "2025-06-01", category := "Emergency" }

/-- Example form input with `targetAmount = "0"`, rejected by `handleSubmit`. -/
def exFormZero : FormData :=
  { title := "Emergency Fund", targetAmount := "0",
    deadline := "2025-06-01", category := "Emergency" }

/-- Example key-value state with nothing stored under any key. -/
def exEmptyKV : KVStore := fun _ => none

/-- Example key-value state holding a malformed payload under the storage key. -/
def exBadKV : KVStore :=
  fun k => if k = STORAGE_KEY then some (Payload.malformed ("not json")) else none

/-- Example key-value state holding the empty string under the storage key:
a stored payload on which `JSON.parse` would throw, but which is falsy under
the source's `if (storedGoals)` guard. -/
def exEmptyStrKV : KVStore :=
  fun k => if k = STORAGE_KEY then some (Payload.malformed ("")) else none

lemma updateSavingsGoal_getElem (gs : List SavingsGoal) (i : String) (δ : ℚ) (n : ℕ) :
    (updateSavingsGoal i δ gs)[n]? = gs[n]?.map (fun g =>
      if g.id = i then { g with currentAmount := min g.targetAmount (g.currentAmount + δ) }
      else g) := by
  simp [updateSavingsGoal, List.getElem?_map]

lemma update_inv (gs : List SavingsGoal) (i : String) (δ : ℚ) (hδ : 0 < δ)
    (hinv : ∀ g ∈ gs, 0 ≤ g.currentAmount ∧ g.currentAmount ≤ g.targetAmount) :
    ∀ g ∈ updateSavingsGoal i δ gs, 0 ≤ g.currentAmount ∧ g.currentAmount ≤ g.targetAmount := by
  intro g hg
  rw [updateSavingsGoal, List.mem_map] at hg
  obtain ⟨g0, hg0, rfl⟩ := hg
  obtain ⟨h0, h1⟩ := hinv g0 hg0
  by_cases h : g0.id = i
  · rw [if_pos h]
    refine ⟨?_, ?_⟩
    · show (0 : ℚ) ≤ min g0.targetAmount (g0.currentAmount + δ)
      exact le_min (le_trans h0 h1) (by linarith)
    · show min g0.targetAmount (g0.currentAmount + δ) ≤ g0.targetAmount
      exact min_le_left _ _
  · rw [if_neg h]
    exact ⟨h0, h1⟩

lemma update_mono (gs : List SavingsGoal) (i : String) (δ : ℚ) (hδ : 0 < δ)
    (hinv : ∀ g ∈ gs, 0 ≤ g.currentAmount ∧ g.currentAmount ≤ g.targetAmount)
    (n : ℕ) (g g2 : SavingsGoal) (h1 : gs[n]? = some g)
    (h2 : (updateSavingsGoal i δ gs)[n]? = some g2) :
    g.currentAmount ≤ g2.currentAmount := by
  rw [updateSavingsGoal_getElem, h1, Option.map_some'] at h2
  obtain ⟨h0, hle⟩ := hinv g (List.getElem?_mem h1)
  rcases Option.some.inj h2 with rfl
  by_cases h : g.id = i
  · rw [if_pos h]
    show g.currentAmount ≤ min g.targetAmount (g.currentAmount + δ)
    exact le_min hle (by linarith)
  · rw [if_neg h]

lemma contributeSeq_inv (ops : List (String × ℚ)) :
    ∀ st : List SavingsGoal, (∀ p ∈ ops, 0 < p.2) →
      (∀ g ∈ st, 0 ≤ g.currentAmount ∧ g.currentAmount ≤ g.targetAmount) →
      ∀ g ∈ contributeSeq ops st, 0 ≤ g.currentAmount ∧ g.currentAmount ≤ g.targetAmount := by
  induction ops with
  | nil => intro st _ hinv; exact hinv
  | cons p ops ih =>
    intro st hops hinv
    have hp : 0 < p.2 := hops p (List.mem_cons_self _ _)
    exact ih (updateSavingsGoal p.1 p.2 st)
      (fun q hq => hops q (List.mem_cons_of_mem _ hq))
      (update_inv st p.1 p.2 hp hinv)

lemma contributeSeq_mono (ops : List (String × ℚ)) :
    ∀ st : List SavingsGoal, (∀ p ∈ ops, 0 < p.2) →
      (∀ g ∈ st, 0 ≤ g.currentAmount ∧ g.currentAmount ≤ g.targetAmount) →
      ∀ (n : ℕ) (g g2 : SavingsGoal), st[n]? = some g →
        (contributeSeq ops st)[n]? = some g2 →
        g.currentAmount ≤ g2.currentAmount := by
  induction ops with
  | nil =>
    intro st _ _ n g g2 h1 h2
    rw [contributeSeq, List.foldl_nil, h1] at h2
    rcases Option.some.inj h2 with rfl
    exact le_refl _
  | cons p ops ih =>
    intro st hops hinv n g g2 h1 h2
    have hp : 0 < p.2 := hops p (List.mem_cons_self _ _)
    have hstep : (updateSavingsGoal p.1 p.2 st)[n]? = some
        (if g.id = p.1 then { g with currentAmount := min g.targetAmount (g.currentAmount + p.2) }
         else g) := by
      rw [updateSavingsGoal_getElem, h1]
      rfl
    have hmid := update_mono st p.1 p.2 hp hinv n g _ h1 hstep
    have htail : (contributeSeq ops (updateSavingsGoal p.1 p.2 st))[n]? = some g2 := by
      rw [contributeSeq] at h2 ⊢
      rw [List.foldl_cons] at h2
      exact h2
    have hrest := ih (updateSavingsGoal p.1 p.2 st)
      (fun q hq => hops q (List.mem_cons_of_mem _ hq))
      (update_inv st p.1 p.2 hp hinv) n _ g2 hstep htail
    exact le_trans hmid hrest

lemma map_field_update (gs : List SavingsGoal) (i : String) (δ : ℚ)
    (proj : SavingsGoal → β)
    (hproj : ∀ g : SavingsGoal,
      proj { g with currentAmount := min g.targetAmount (g.currentAmount + δ) } = proj g) :
    (updateSavingsGoal i δ gs).map proj = gs.map proj := by
  rw [updateSavingsGoal, List.map_map]
  apply List.map_congr_left
  intro g _
  by_cases h : g.id = i
  · simp only [Function.comp_apply, if_pos h, hproj]
  · simp only [Function.comp_apply, if_neg h]

lemma filter_other_update (gs : List SavingsGoal) (i : String) (δ : ℚ) :
    (updateSavingsGoal i δ gs).filter (fun g => g.id ≠ i) =
      gs.filter (fun g => g.id ≠ i) := by
  induction gs with
  | nil => rfl
  | cons g t ih =>
    rw [updateSavingsGoal, List.map_cons, List.filter_cons, List.filter_cons]
    by_cases h : g.id = i
    · rw [if_pos h]
      have hid : ({ g with currentAmount := min g.targetAmount (g.currentAmount + δ) } :
          SavingsGoal).id = i := h
      simp only [hid, h, ne_eq, not_true_eq_false, decide_False, if_false]
      exact ih
    · rw [if_neg h]
      simp only [ne_eq, h, not_false_eq_true, decide_True]
      rw [← updateSavingsGoal, ih]

lemma update_noop_of_absent (gs : List SavingsGoal) (i : String) (δ : ℚ)
    (h : ∀ g ∈ gs, g.id ≠ i) : updateSavingsGoal i δ gs = gs := by
  rw [updateSavingsGoal]
  have : ∀ g ∈ gs, (if g.id = i then
      ({ g with currentAmount := min g.targetAmount (g.currentAmount + δ) } : SavingsGoal)
    else g) = g := by
    intro g hg
    rw [if_neg (h g hg)]
  rw [List.map_congr_left this, List.map_id']

/-- C1: for every savings goal in the store whose state satisfies the store
invariant, and for every sequence of positive contributions, `currentAmount`
after a contribute equals `min(targetAmount, currentAmount + δ)`, never
decreases (single step and across the whole sequence) and never exceeds
`targetAmount`. -/
theorem contribute_clamp_monotone (st : List SavingsGoal) (i : String) (δ : ℚ)
    (ops : List (String × ℚ)) (hδ : 0 < δ) (hops : ∀ p ∈ ops, 0 < p.2)
    (hinv : ∀ g ∈ st, 0 ≤ g.currentAmount ∧ g.currentAmount ≤ g.targetAmount) :
    (∀ n : ℕ, (updateSavingsGoal i δ st)[n]? = st[n]?.map (fun g =>
      if g.id = i then { g with currentAmount := min g.targetAmount (g.currentAmount + δ) }
      else g))
    ∧ (∀ g ∈ updateSavingsGoal i δ st, 0 ≤ g.currentAmount ∧ g.currentAmount ≤ g.targetAmount)
    ∧ (∀ (n : ℕ) (g g2 : SavingsGoal), st[n]? = some g →
        (updateSavingsGoal i δ st)[n]? = some g2 → g.currentAmount ≤ g2.currentAmount)
    ∧ (∀ g ∈ contributeSeq ops st, 0 ≤ g.currentAmount ∧ g.currentAmount ≤ g.targetAmount)
    ∧ (∀ (n : ℕ) (g g2 : SavingsGoal), st[n]? = some g →
        (contributeSeq ops st)[n]? = some g2 → g.currentAmount ≤ g2.currentAmount) :=
  ⟨fun n => updateSavingsGoal_getElem st i δ n,
   update_inv st i δ hδ hinv,
   fun n g g2 => update_mono st i δ hδ hinv n g g2,
   contributeSeq_inv ops st hops hinv,
   contributeSeq_mono ops st hops hinv⟩

/-- Witness for C1 at the concrete store `[exGoal]` with contribution 100. -/
theorem contribute_clamp_monotone_witness :
    ((0 : ℚ) < 100
      ∧ (∀ p ∈ [(("g1" : String), (100 : ℚ))], 0 < p.2)
      ∧ (∀ g ∈ [exGoal], 0 ≤ g.currentAmount ∧ g.currentAmount ≤ g.targetAmount))
    ∧ (∀ g ∈ contributeSeq [(("g1" : String), (100 : ℚ))] [exGoal],
        0 ≤ g.currentAmount ∧ g.currentAmount ≤ g.targetAmount) := by
  have h1 : (0 : ℚ) < 100 := by norm_num
  have h2 : ∀ p ∈ [(("g1" : String), (100 : ℚ))], 0 < p.2 := by
    intro p hp
    rw [List.mem_singleton] at hp
    subst hp
    norm_num
  have h3 : ∀ g ∈ [exGoal], 0 ≤ g.currentAmount ∧ g.currentAmount ≤ g.targetAmount := by
    intro g hg
    rw [List.mem_singleton] at hg
    subst hg
    refine ⟨?_, ?_⟩ <;> norm_num [exGoal]
  exact ⟨⟨h1, h2, h3⟩,
    (contribute_clamp_monotone [exGoal] "g1" 100 [(("g1" : String), (100 : ℚ))]
      h1 h2 h3).2.2.2.1⟩

/-- C10: contribute touches at most the `currentAmount` of the matching goal:
the list length and order are preserved, every goal keeps its `id`, `title`,
`targetAmount`, `deadline` and `category`, and the sublist of goals whose id
differs from the target id is entirely unchanged. -/
theorem contribute_frame (gs : List SavingsGoal) (i : String) (δ : ℚ) :
    (updateSavingsGoal i δ gs).length = gs.length
    ∧ (updateSavingsGoal i δ gs).map (fun g => g.id) = gs.map (fun g => g.id)
    ∧ (updateSavingsGoal i δ gs).map (fun g => g.title) = gs.map (fun g => g.title)
    ∧ (updateSavingsGoal i δ gs).map (fun g => g.targetAmount) =
        gs.map (fun g => g.targetAmount)
    ∧ (updateSavingsGoal i δ gs).map (fun g => g.deadline) = gs.map (fun g => g.deadline)
    ∧ (updateSavingsGoal i δ gs).map (fun g => g.category) = gs.map (fun g => g.category)
    ∧ (updateSavingsGoal i δ gs).filter (fun g => g.id ≠ i) =
        gs.filter (fun g => g.id ≠ i) :=
  ⟨by simp [updateSavingsGoal],
   map_field_update gs i δ (fun g => g.id) (fun g => rfl),
   map_field_update gs i δ (fun g => g.title) (fun g => rfl),
   map_field_update gs i δ (fun g => g.targetAmount) (fun g => rfl),
   map_field_update gs i δ (fun g => g.deadline) (fun g => rfl),
   map_field_update gs i δ (fun g => g.category) (fun g => rfl),
   filter_other_update gs i δ⟩

/-- C7: delete is idempotent on both stores, and delete or contribute on an
id that is not present leaves the store unchanged (a silent no-op, no
error value in sight). -/
theorem delete_idempotent_unknown_noop (txs : List Transaction)
    (gs : List SavingsGoal) (i : String) (δ : ℚ) :
    deleteTransaction i (deleteTransaction i txs) = deleteTransaction i txs
    ∧ deleteSavingsGoal i (deleteSavingsGoal i gs) = deleteSavingsGoal i gs
    ∧ ((∀ t ∈ txs, t.id ≠ i) → deleteTransaction i txs = txs)
    ∧ ((∀ g ∈ gs, g.id ≠ i) → deleteSavingsGoal i gs = gs)
    ∧ ((∀ g ∈ gs, g.id ≠ i) → updateSavingsGoal i δ gs = gs) := by
  refine ⟨?_, ?_, ?_, ?_, ?_⟩
  · simp [deleteTransaction, List.filter_filter]
  · simp [deleteSavingsGoal, List.filter_filter]
  · intro h
    rw [deleteTransaction, List.filter_eq_self]
    intro t ht
    simpa using h t ht
  · intro h
    rw [deleteSavingsGoal, List.filter_eq_self]
    intro g hg
    simpa using h g hg
  · exact update_noop_of_absent gs i δ

/-- Witness for C7 at concrete stores and the absent id "zzz". -/
theorem delete_idempotent_unknown_noop_witness :
    (∀ t ∈ [exCoffee], t.id ≠ "zzz")
    ∧ (∀ g ∈ [exGoal], g.id ≠ "zzz")
    ∧ deleteTransaction ("zzz") [exCoffee] = [exCoffee]
    ∧ deleteSavingsGoal ("zzz") [exGoal] = [exGoal]
    ∧ updateSavingsGoal ("zzz") 7 [exGoal] = [exGoal] := by
  have ht : ∀ t ∈ [exCoffee], t.id ≠ "zzz" := by
    intro t htm
    rw [List.mem_singleton] at htm
    subst htm
    simp [exCoffee]
  have hg : ∀ g ∈ [exGoal], g.id ≠ "zzz" := by
    intro g hgm
    rw [List.mem_singleton] at hgm
    subst hgm
    simp [exGoal]
  exact ⟨ht, hg,
    (delete_idempotent_unknown_noop [exCoffee] [exGoal] "zzz" 7).2.2.1 ht,
    (delete_idempotent_unknown_noop [exCoffee] [exGoal] "zzz" 7).2.2.2.1 hg,
    (delete_idempotent_unknown_noop [exCoffee] [exGoal] "zzz" 7).2.2.2.2 hg⟩

lemma parseFloat_ne_empty (s : String) (t : ℚ) (h : parseFloat s = some t) : s ≠ "" := by
  intro he
  subst he
  exact Option.noConfusion h

/-- C2: the savings-goal add operation (form submit feeding
`addSavingsGoal`) leaves the store unchanged when a field is empty or when
the parsed target amount is not strictly positive, and otherwise prepends
the goal with `currentAmount` initialised to 0. -/
theorem add_goal_validation (fd : FormData) (newId : String) (st : List SavingsGoal) :
    ((fd.title = "" ∨ fd.targetAmount = "" ∨ fd.deadline = "" ∨ fd.category = "") →
      handleSubmit fd newId st = st)
    ∧ (∀ t : ℚ, parseFloat fd.targetAmount = some t → t ≤ 0 →
      handleSubmit fd newId st = st)
    ∧ (∀ t : ℚ, parseFloat fd.targetAmount = some t → 0 < t →
      fd.title ≠ "" → fd.deadline ≠ "" → fd.category ≠ "" →
      handleSubmit fd newId st =
        { id := newId, title := fd.title, targetAmount := t, currentAmount := 0,
          deadline := fd.deadline, category := fd.category } :: st) := by
  refine ⟨?_, ?_, ?_⟩
  · intro h
    rw [handleSubmit, if_pos h]
  · intro t hparse hle
    by_cases hempty : fd.title = "" ∨ fd.targetAmount = "" ∨ fd.deadline = "" ∨ fd.category = ""
    · rw [handleSubmit, if_pos hempty]
    · rw [handleSubmit, if_neg hempty, hparse]
      exact if_pos hle
  · intro t hparse hpos htitle hdeadline hcategory
    have hempty : ¬ (fd.title = "" ∨ fd.targetAmount = "" ∨ fd.deadline = "" ∨ fd.category = "") := by
      push_neg
      exact ⟨htitle, parseFloat_ne_empty _ _ hparse, hdeadline, hcategory⟩
    rw [handleSubmit, if_neg hempty, hparse]
    show (if t ≤ 0 then st
      else addSavingsGoal
        { id := newId, title := fd.title, targetAmount := t, currentAmount := 0,
          deadline := fd.deadline, category := fd.category } st) =
      { id := newId, title := fd.title, targetAmount := t, currentAmount := 0,
        deadline := fd.deadline, category := fd.category } :: st
    rw [if_neg (not_le.mpr hpos)]
    rfl

/-- Witness for C2: target amount "0" is rejected with the empty store
unchanged, and a positive target ("1000") is inserted at the head with
`currentAmount = 0`. -/
theorem add_goal_validation_witness :
    (parseFloat ("0") = some 0 ∧ (0 : ℚ) ≤ 0
      ∧ handleSubmit exFormZero ("123") [] = [])
    ∧ (parseFloat ("1000") = some 1000 ∧ (0 : ℚ) < 1000
      ∧ handleSubmit exFormOk ("123") [] =
        [{ id := "123", title := "Emergency Fund", targetAmount := 1000,
           currentAmount := 0, deadline := "2025-06-01", category := "Emergency" }]) := by
  have hp0 : parseFloat ("0") = some 0 := by simp [parseFloat, natOfDigits, digitVal]
  have hp1 : parseFloat ("1000") = some 1000 := by simp [parseFloat, natOfDigits, digitVal]
  refine ⟨⟨hp0, le_refl 0, ?_⟩, ⟨hp1, by norm_num, ?_⟩⟩
  · exact (add_goal_validation exFormZero ("123") []).2.1 0 hp0 (le_refl 0)
  · have := (add_goal_validation exFormOk ("123") []).2.2 1000 hp1 (by norm_num)
      (by simp [exFormOk]) (by simp [exFormOk]) (by simp [exFormOk])
    simpa [exFormOk] using this

lemma decodeGoal_encodeGoal (g : SavingsGoal) : decodeGoal (encodeGoal g) = some g := rfl

lemma decodeGoals_encodeGoals (gs : List SavingsGoal) :
    decodeGoals (encodeGoals gs) = some gs := by
  show List.mapM decodeGoal (gs.map encodeGoal) = some gs
  induction gs with
  | nil => rfl
  | cons g t ih =>
    rw [List.map_cons, List.mapM_cons, decodeGoal_encodeGoal, ih]
    rfl

/-- C8: saving a goal list through the persistence collaborator under the
fixed storage key and loading it back yields a list equal by value to the
original. -/
theorem persistence_round_trip (gs : List SavingsGoal) (kv : KVStore) :
    (loadSavingsGoals (saveSavingsGoals gs kv)).savingsGoals = gs := by
  have hkey : saveSavingsGoals gs kv STORAGE_KEY = some (Payload.json (encodeGoals gs)) := by
    rw [saveSavingsGoals, if_pos rfl]
  rw [loadSavingsGoals, hkey]
  simp [decodeGoals_encodeGoals]

/-- C9 counterexample: an empty string stored under the key is a stored,
unparseable payload (`JSON.parse` of it throws), yet the load reports nothing
to the user — the `if (storedGoals)` truthiness guard skips it like an absent
key, refuting "malformed payload implies the error is reported". -/
theorem load_malformed_empty_silent :
    exEmptyStrKV STORAGE_KEY = some (Payload.malformed (""))
    ∧ (loadSavingsGoals exEmptyStrKV).alerted = false
    ∧ (loadSavingsGoals exEmptyStrKV).savingsGoals = [] := by
  have h : exEmptyStrKV STORAGE_KEY = some (Payload.malformed ("")) := by
    rw [exEmptyStrKV, if_pos rfl]
  refine ⟨h, ?_, ?_⟩ <;> rw [loadSavingsGoals, h] <;> rfl

/-- C9 (amended): a load with nothing stored under the key — or with a
stored empty string, which is falsy under the source's `if (storedGoals)`
guard and treated like an absent key — yields the empty list with no error
surfaced; a load of a non-empty malformed payload yields the empty list, the
user-facing alert, and a cleared loading flag (the session continues). -/
theorem load_fallback (kv : KVStore) (s : String) :
    (kv STORAGE_KEY = none →
      loadSavingsGoals kv = { savingsGoals := [], isLoading := false, alerted := false })
    ∧ (kv STORAGE_KEY = some (Payload.malformed ("")) →
      loadSavingsGoals kv = { savingsGoals := [], isLoading := false, alerted := false })
    ∧ (kv STORAGE_KEY = some (Payload.malformed s) → s ≠ "" →
      loadSavingsGoals kv = { savingsGoals := [], isLoading := false, alerted := true }) := by
  refine ⟨?_, ?_, ?_⟩
  · intro h
    rw [loadSavingsGoals, h]
  · intro h
    rw [loadSavingsGoals, h]
    rfl
  · intro h hs
    rw [loadSavingsGoals, h]
    show (if s = "" then
        ({ savingsGoals := [], isLoading := false, alerted := false } : LoadResult)
      else { savingsGoals := [], isLoading := false, alerted := true }) =
      { savingsGoals := [], isLoading := false, alerted := true }
    rw [if_neg hs]

/-- Witness for C9: the empty store, the store holding the falsy empty
string, and a store holding a truthy malformed payload. -/
theorem load_fallback_witness :
    (exEmptyKV STORAGE_KEY = none
      ∧ loadSavingsGoals exEmptyKV =
        { savingsGoals := [], isLoading := false, alerted := false })
    ∧ (exEmptyStrKV STORAGE_KEY = some (Payload.malformed (""))
      ∧ loadSavingsGoals exEmptyStrKV =
        { savingsGoals := [], isLoading := false, alerted := false })
    ∧ (exBadKV STORAGE_KEY = some (Payload.malformed ("not json"))
      ∧ ("not json" : String) ≠ ""
      ∧ loadSavingsGoals exBadKV =
        { savingsGoals := [], isLoading := false, alerted := true }) := by
  have h1 : exEmptyKV STORAGE_KEY = none := rfl
  have h2 : exEmptyStrKV STORAGE_KEY = some (Payload.malformed ("")) := by
    rw [exEmptyStrKV, if_pos rfl]
  have h3 : exBadKV STORAGE_KEY = some (Payload.malformed ("not json")) := by
    rw [exBadKV, if_pos rfl]
  have hne : ("not json" : String) ≠ "" := by decide
  exact ⟨⟨h1, (load_fallback exEmptyKV ("not json")).1 h1⟩,
    ⟨h2, (load_fallback exEmptyStrKV ("not json")).2.1 h2⟩,
    ⟨h3, hne, (load_fallback exBadKV ("not json")).2.2 h3 hne⟩⟩

/-- C6: the goal-progress derivation computes
`progressPercent = currentAmount / targetAmount * 100`,
`remaining = targetAmount - currentAmount`,
`isCompleted = (currentAmount >= targetAmount)` and
`daysRemaining = ceil((deadline - today) / 1 day)`; on the goal with target
1000 and current 250, progress is 25, remaining 750, not completed. -/
theorem goal_progress_spec (g : SavingsGoal) (todayMs : ℤ) :
    progress g = g.currentAmount / g.targetAmount * 100
    ∧ remaining g = g.targetAmount - g.currentAmount
    ∧ (isCompleted g = true ↔ g.currentAmount ≥ g.targetAmount)
    ∧ getDaysRemaining g todayMs =
        ⌈((dateValue g.deadline - todayMs : ℤ) : ℚ) / 86400000⌉
    ∧ progress exGoal = 25
    ∧ remaining exGoal = 750
    ∧ isCompleted exGoal = false := by
  refine ⟨rfl, rfl, ?_, ?_, ?_, ?_, ?_⟩
  · simp [isCompleted, ge_iff_le]
  · rw [getDaysRemaining]
    norm_num
  · rw [progress]
    norm_num [exGoal]
  · rw [remaining]
    norm_num [exGoal]
  · norm_num [isCompleted, exGoal, decide_eq_false_iff_not]

lemma catLookup_cons_of_pos (p : String × CategoryStat) (t : List (String × CategoryStat))
    (c : String) (h : p.1 = c) : catLookup (p :: t) c = some p.2 := by
  rw [catLookup, List.find?_cons_of_pos _ (by simpa using h), Option.map_some']

lemma catLookup_cons_of_neg (p : String × CategoryStat) (t : List (String × CategoryStat))
    (c : String) (h : ¬ p.1 = c) : catLookup (p :: t) c = catLookup t c := by
  rw [catLookup, List.find?_cons_of_neg _ (by simpa using h), ← catLookup]

lemma catLookup_map_bump (l : List (String × CategoryStat)) (cat : String)
    (ty : TxType) (amt : ℚ) (c : String) :
    catLookup (l.map (fun p => if p.1 = cat then (p.1, bumpStat p.2 ty amt) else p)) c =
      if cat = c then (catLookup l c).map (fun v => bumpStat v ty amt)
      else catLookup l c := by
  induction l with
  | nil => by_cases h : cat = c <;> simp [catLookup, h]
  | cons p t ih =>
    rw [List.map_cons]
    have hhead : (if p.1 = cat then (p.1, bumpStat p.2 ty amt) else p).1 = p.1 := by
      by_cases hpc : p.1 = cat <;> simp [hpc]
    by_cases h1 : p.1 = c
    · rw [catLookup_cons_of_pos _ _ _ (hhead.trans h1), catLookup_cons_of_pos p t c h1]
      by_cases h2 : cat = c
      · rw [if_pos h2, if_pos (h1.trans h2.symm), Option.map_some']
      · rw [if_neg h2, if_neg (fun hh : p.1 = cat => h2 (hh.symm.trans h1))]
    · rw [catLookup_cons_of_neg _ _ _ (by rw [hhead]; exact h1),
        catLookup_cons_of_neg p t c h1, ih]

lemma catLookup_append_single (l : List (String × CategoryStat)) (cat : String)
    (d : CategoryStat) (c : String) :
    catLookup (l ++ [(cat, d)]) c =
      match catLookup l c with
      | some v => some v
      | none => if cat = c then some d else none := by
  induction l with
  | nil =>
    rw [List.nil_append]
    by_cases h : cat = c
    · rw [catLookup_cons_of_pos _ _ _ h, if_pos h]
      rfl
    · rw [catLookup_cons_of_neg _ _ _ h, if_neg h]
      rfl
  | cons p t ih =>
    rw [List.cons_append]
    by_cases h1 : p.1 = c
    · rw [catLookup_cons_of_pos _ _ _ h1, catLookup_cons_of_pos p t c h1]
    · rw [catLookup_cons_of_neg _ _ _ h1, catLookup_cons_of_neg p t c h1, ih]

lemma catLookup_none_iff (l : List (String × CategoryStat)) (c : String) :
    catLookup l c = none ↔ l.any (fun p => p.1 = c) = false := by
  rw [catLookup, Option.map_eq_none', List.find?_eq_none, List.any_eq_false]

lemma catLookup_catStep (acc : List (String × CategoryStat)) (t : Transaction) (c : String) :
    catLookup (catStep acc t) c =
      if t.category = c then
        some (bumpStat ((catLookup acc c).getD { income := 0, expense := 0 }) t.txType t.amount)
      else catLookup acc c := by
  rw [catStep]
  by_cases hpresent : acc.any (fun p => p.1 = t.category)
  · rw [if_pos hpresent, catLookup_map_bump]
    by_cases hc : t.category = c
    · rw [if_pos hc, if_pos hc]
      subst hc
      obtain ⟨v, hv⟩ : ∃ v, catLookup acc t.category = some v := by
        rcases ho : catLookup acc t.category with _ | v
        · rw [catLookup_none_iff] at ho
          rw [ho] at hpresent
          exact absurd hpresent (by simp)
        · exact ⟨v, rfl⟩
      rw [hv]
      rfl
    · rw [if_neg hc, if_neg hc]
  · rw [if_neg hpresent, catLookup_map_bump, catLookup_append_single]
    by_cases hc : t.category = c
    · subst hc
      have hnone : catLookup acc t.category = none := by
        rw [catLookup_none_iff]
        exact Bool.eq_false_iff.mpr hpresent
      rw [hnone]
      simp
    · simp only [if_neg hc]
      rcases ho : catLookup acc c with _ | v <;> rfl

lemma incSum_cons (t : Transaction) (ts : List Transaction) (c : String) :
    incSum (t :: ts) c =
      (if t.category = c ∧ t.txType = TxType.income then t.amount else 0) + incSum ts c := by
  by_cases h : t.category = c ∧ t.txType = TxType.income <;>
    simp [incSum, List.filter_cons, h]

lemma expSum_cons (t : Transaction) (ts : List Transaction) (c : String) :
    expSum (t :: ts) c =
      (if t.category = c ∧ t.txType = TxType.expense then t.amount else 0) + expSum ts c := by
  by_cases h : t.category = c ∧ t.txType = TxType.expense <;>
    simp [expSum, List.filter_cons, h]

lemma catLookup_foldl_catStep (txs : List Transaction) :
    ∀ (acc : List (String × CategoryStat)) (c : String),
      catLookup (txs.foldl catStep acc) c =
        match catLookup acc c with
        | some v => some { income := v.income + incSum txs c,
                           expense := v.expense + expSum txs c }
        | none =>
          if txs.any (fun t => t.category = c) then
            some { income := incSum txs c, expense := expSum txs c }
          else none := by
  induction txs with
  | nil =>
    intro acc c
    rw [List.foldl_nil]
    rcases ho : catLookup acc c with _ | v
    · simp [incSum, expSum]
    · simp [incSum, expSum]
  | cons t ts ih =>
    intro acc c
    rw [List.foldl_cons, ih (catStep acc t) c, catLookup_catStep,
      incSum_cons, expSum_cons, List.any_cons]
    by_cases hc : t.category = c
    · rw [if_pos hc]
      have hbtrue : (decide (t.category = c) || ts.any (fun t => t.category = c)) = true := by
        simp [hc]
      rcases ho : catLookup acc c with _ | v <;>
        cases hty : t.txType <;>
          simp [bumpStat, hty, hc, hbtrue, CategoryStat.mk.injEq, add_assoc]
    · rw [if_neg hc]
      have h1 : ¬ (t.category = c ∧ t.txType = TxType.income) := fun hh => hc hh.1
      have h2 : ¬ (t.category = c ∧ t.txType = TxType.expense) := fun hh => hc hh.1
      rw [if_neg h1, if_neg h2]
      simp only [zero_add]
      have hb : (decide (t.category = c) || ts.any (fun t => t.category = c)) =
          ts.any (fun t => t.category = c) := by
        simp [hc]
      rw [hb]

lemma foldl_add_eq_sum (l : List ℚ) : ∀ a : ℚ, l.foldl (fun sum x => sum + x) a = a + l.sum := by
  induction l with
  | nil => intro a; simp
  | cons x t ih =>
    intro a
    rw [List.foldl_cons, ih, List.sum_cons]
    ring

/-- C5: the analytics derivation returns the income and expense totals, their
difference as the balance, the list length, and per-category income and
expense sums over the full list; the spec's concrete vector checks out. -/
theorem analytics_spec (txs : List Transaction) :
    (analytics txs).totalIncome =
        ((txs.filter (fun t => t.txType = TxType.income)).map (fun t => t.amount)).sum
    ∧ (analytics txs).totalExpense =
        ((txs.filter (fun t => t.txType = TxType.expense)).map (fun t => t.amount)).sum
    ∧ (analytics txs).balance = (analytics txs).totalIncome - (analytics txs).totalExpense
    ∧ (analytics txs).transactionCount = txs.length
    ∧ (∀ c : String, catLookup (analytics txs).categoryStats c =
        if txs.any (fun t => t.category = c) then
          some { income := incSum txs c, expense := expSum txs c }
        else none)
    ∧ (analytics [exIncome100, exExpense40, exFood10]).totalIncome = 100
    ∧ (analytics [exIncome100, exExpense40, exFood10]).totalExpense = 50
    ∧ (analytics [exIncome100, exExpense40, exFood10]).balance = 50
    ∧ catLookup (analytics [exIncome100, exExpense40, exFood10]).categoryStats ("Food") =
        some { income := 0, expense := 10 } := by
  refine ⟨?_, ?_, rfl, rfl, ?_, ?_, ?_, ?_, ?_⟩
  · simp [analytics, foldl_add_eq_sum]
  · simp [analytics, foldl_add_eq_sum]
  · intro c
    rw [show (analytics txs).categoryStats = categoryStats txs from rfl, categoryStats,
      catLookup_foldl_catStep txs [] c]
    rfl
  · simp [analytics, exIncome100, exExpense40, exFood10, List.filter_cons, List.foldl_cons]
  · simp [analytics, exIncome100, exExpense40, exFood10, List.filter_cons, List.foldl_cons]
    norm_num
  · simp [analytics, exIncome100, exExpense40, exFood10, List.filter_cons, List.foldl_cons]
    norm_num
  · simp [catLookup, categoryStats, catStep, bumpStat, List.foldl_cons, List.find?,
      exIncome100, exExpense40, exFood10, analytics]

lemma mem_insertStable (le : α → α → Bool) (x : α) (l : List α) (a : α) :
    a ∈ insertStable le x l ↔ a = x ∨ a ∈ l := by
  induction l with
  | nil => simp [insertStable]
  | cons y ys ih =>
    rw [insertStable]
    by_cases h : le y x
    · rw [if_pos h]
      simp only [List.mem_cons, ih]
      tauto
    · rw [if_neg h]
      simp only [List.mem_cons]

lemma mem_foldl_insertStable (le : α → α → Bool) (l : List α) :
    ∀ (acc : List α) (a : α),
      (a ∈ l.foldl (fun acc x => insertStable le x acc) acc) ↔ a ∈ acc ∨ a ∈ l := by
  induction l with
  | nil => simp
  | cons x t ih =>
    intro acc a
    rw [List.foldl_cons, ih, mem_insertStable]
    simp only [List.mem_cons]
    tauto

lemma mem_stableSort (le : α → α → Bool) (l : List α) (a : α) :
    a ∈ stableSort le l ↔ a ∈ l := by
  rw [stableSort, mem_foldl_insertStable]
  simp

/-- C4: the query pipeline runs search (case-insensitive substring on title
or category, only for a non-empty query), then the type filter, then the
sort, in that order; membership in each stage is as specified, and on the
spec's two-transaction vector the sorts and the search produce the stated
outputs. -/
theorem query_pipeline_spec :
    (∀ (txs : List Transaction) (q : String) (f : FilterType) (s : SortType),
      (processedTransactions txs q f s).1 = sortStep s (filterStep f (searchStep q txs)))
    ∧ (∀ (txs : List Transaction) (q : String) (t : Transaction), q ≠ "" →
        (t ∈ searchStep q txs ↔ t ∈ txs ∧
          (jsIncludes (jsToLower t.title) (jsToLower q) ||
           jsIncludes (jsToLower t.category) (jsToLower q)) = true))
    ∧ (∀ (txs : List Transaction) (t : Transaction),
        (t ∈ filterStep FilterType.income txs ↔ t ∈ txs ∧ t.txType = TxType.income)
        ∧ (t ∈ filterStep FilterType.expense txs ↔ t ∈ txs ∧ t.txType = TxType.expense)
        ∧ filterStep FilterType.all txs = txs)
    ∧ (∀ (l : List Transaction) (s : SortType) (t : Transaction),
        t ∈ sortStep s l ↔ t ∈ l)
    ∧ (processedTransactions [exCoffee, exSalary] "" FilterType.all SortType.highest).1.map
        (fun t => t.id) = ["2", "1"]
    ∧ (processedTransactions [exCoffee, exSalary] "" FilterType.all SortType.newest).1.map
        (fun t => t.id) = ["1", "2"]
    ∧ (processedTransactions [exCoffee, exSalary] "cof" FilterType.all SortType.newest).1.map
        (fun t => t.id) = ["1"] := by
  refine ⟨fun txs q f s => rfl, ?_, ?_, ?_, ?_, ?_, ?_⟩
  · intro txs q t hq
    rw [searchStep, if_neg hq, List.mem_filter]
  · intro txs t
    refine ⟨?_, ?_, rfl⟩ <;> simp [filterStep, List.mem_filter]
  · intro l s t
    rw [sortStep, mem_stableSort]
  · norm_num [processedTransactions, sortStep, stableSort, insertStable, sortLe,
      sortComparator, searchStep, filterStep, exCoffee, exSalary]
  · have hd1 : dateValue ("2024-01-01") = 1704067200000 := by decide
    have hd2 : dateValue ("2024-01-02") = 1704153600000 := by decide
    norm_num [processedTransactions, sortStep, stableSort, insertStable, sortLe,
      sortComparator, searchStep, filterStep, exCoffee, exSalary, hd1, hd2]
  · have hs : searchStep ("cof") [exCoffee, exSalary] = [exCoffee] := by decide
    rw [show (processedTransactions [exCoffee, exSalary] "cof" FilterType.all
        SortType.newest).1 =
      sortStep SortType.newest (filterStep FilterType.all
        (searchStep ("cof") [exCoffee, exSalary])) from rfl, hs]
    simp [sortStep, stableSort, insertStable, filterStep, exCoffee]

/-- Witness for C4 at the concrete search query "cof". -/
theorem query_pipeline_spec_witness :
    ("cof" : String) ≠ ""
    ∧ (exCoffee ∈ searchStep ("cof") [exCoffee, exSalary] ↔
        exCoffee ∈ [exCoffee, exSalary] ∧
        (jsIncludes (jsToLower exCoffee.title) (jsToLower ("cof")) ||
         jsIncludes (jsToLower exCoffee.category) (jsToLower ("cof"))) = true) :=
  ⟨by decide, query_pipeline_spec.2.1 [exCoffee, exSalary] "cof" exCoffee (by decide)⟩

/-- C3 (refuted by the code): with an empty search query and filter `all`,
`filtered` aliases the store array and the in-place sort reorders the
transaction store itself: on the spec's two-transaction vector with sort
`highest` the store afterwards is `[exSalary, exCoffee]`, not the original
`[exCoffee, exSalary]`. -/
theorem derivation_mutates_store :
    (processedTransactions [exCoffee, exSalary] "" FilterType.all SortType.highest).2 =
      [exSalary, exCoffee]
    ∧ ([exSalary, exCoffee] : List Transaction) ≠ [exCoffee, exSalary] := by
  constructor
  · norm_num [processedTransactions, sortStep, stableSort, insertStable, sortLe,
      sortComparator, searchStep, filterStep, exCoffee, exSalary]
  · decide
